import Mathlib

/-!
Verification of the nffPktgen configuration parser
(examples/nffPktgen/generator/parseConfig.go).

The untyped JSON tree that Go's `json.Decode` hands to the parser is
modelled by `JValue`; objects are association lists, which fixes one
iteration order for Go's (unordered) map range loops.  JSON numbers are
modelled by `Int` (every claim below only exercises integral values).
Go's `(value, err)` multiple returns become `Except PError`, except for
the two top-level entry points, which return the pair of both results
exactly as the Go functions do.  A failed interface type assertion
(`v.(T)`) aborts the Go program; it is modelled by the `typeMismatch`
error.  The single call to `rand.Uint32()` in `parseSeq` is modelled by
an explicit parameter `rnd` threaded through the header parsers.
-/

/-- Untyped decoded JSON tree (`map[string]interface{}` / `[]interface{}` /
scalars), objects as association lists. -/
inductive JValue where
  | num (n : Int)
  | str (s : String)
  | bool (b : Bool)
  | obj (fields : List (String × JValue))
  | arr (elems : List JValue)
deriving Repr

/-- Kinds of terminal parse failures.  Go reports errors as formatted
strings; this type keeps the kind of each distinct failure site.
`typeMismatch` stands for a failed interface type assertion. -/
inductive PError where
  | unknownKey (k : String)
  | missingField
  | rangeInvalid
  | typeMismatch
  | badValue (s : String)
  | failedParseData
deriving DecidableEq, Repr

/-- DataType enum from the source; `etherhdr` is the first (zero) value and
`none` is the last. -/
inductive DataType where
  | etherhdr
  | iphdr
  | tcphdr
  | udphdr
  | icmphdr
  | arphdr
  | pdistdata
  | randdata
  | rawdata
  | none
deriving DecidableEq, Repr

inductive SequenceType where
  | random
  | increasing
deriving DecidableEq, Repr

/-- Sequence from the source (field `Type` renamed: keyword). -/
structure Sequence where
  SType : SequenceType
  Next : Nat
deriving DecidableEq, Repr

/-- PortRange from the source; uint16 fields carried as Nat. -/
structure PortRange where
  Min : Nat
  Max : Nat
  Current : Nat
  Incr : Nat
deriving DecidableEq, Repr

/-- AddrRange from the source; byte slices carried as lists of byte values. -/
structure AddrRange where
  Min : List Nat
  Max : List Nat
  Current : List Nat
  Incr : List Nat
deriving DecidableEq, Repr

structure Raw where
  Data : String
deriving DecidableEq, Repr

structure RandBytes where
  Size : Nat
  Deviation : Nat
deriving DecidableEq, Repr

/-- What `parsePdistEntry` can store behind the `Data` pointer of a
`PDistEntry`: nothing (nil), a `Raw`, or a `RandBytes`. -/
inductive RdBox where
  | none
  | raw (r : Raw)
  | rand (r : RandBytes)
deriving DecidableEq, Repr

/-- PDistEntry; the zero value has `DType = 0 = etherhdr` and a nil pointer. -/
structure PDistEntry where
  Probability : Int
  DType : DataType
  Data : RdBox
deriving DecidableEq, Repr

/-- What `parseData` can return behind its `unsafe.Pointer`. -/
inductive PayloadD where
  | raw (r : Raw)
  | rand (r : RandBytes)
  | pdist (es : List PDistEntry)
deriving DecidableEq, Repr

/-- Child pointer of the TCP/UDP/ICMP configs: nil or a payload. -/
inductive HChild where
  | none
  | payload (d : PayloadD)
deriving DecidableEq, Repr

structure TCPConfig where
  SPort : PortRange
  DPort : PortRange
  Seq : Sequence
  Flags : Nat
  DType : DataType
  Data : HChild
deriving DecidableEq, Repr

structure UDPConfig where
  SPort : PortRange
  DPort : PortRange
  DType : DataType
  Data : HChild
deriving DecidableEq, Repr

structure ICMPConfig where
  IType : Nat
  Code : Nat
  Identifier : Nat
  Seq : Sequence
  DType : DataType
  Data : HChild
deriving DecidableEq, Repr

structure ARPConfig where
  Operation : Nat
  Gratuitous : Bool
  SHA : AddrRange
  SPA : AddrRange
  THA : AddrRange
  TPA : AddrRange
deriving DecidableEq, Repr

/-- Child pointer of an IPConfig: nil, a transport header, or a payload. -/
inductive IPChild where
  | none
  | tcp (c : TCPConfig)
  | udp (c : UDPConfig)
  | icmp (c : ICMPConfig)
  | payload (d : PayloadD)
deriving DecidableEq, Repr

structure IPConfig where
  Version : Int
  SAddr : AddrRange
  DAddr : AddrRange
  DType : DataType
  Data : IPChild
deriving DecidableEq, Repr

structure VlanTagConfig where
  TCI : Nat
deriving DecidableEq, Repr

/-- Child pointer of an EtherConfig: nil, an IP or ARP header, or a payload. -/
inductive EtherChild where
  | none
  | ip (c : IPConfig)
  | arp (c : ARPConfig)
  | payload (d : PayloadD)
deriving DecidableEq, Repr

structure EtherConfig where
  DAddr : AddrRange
  SAddr : AddrRange
  VLAN : Option VlanTagConfig
  DType : DataType
  Data : EtherChild
deriving DecidableEq, Repr

/-- PacketConfig; its `Data` pointer always holds an `EtherConfig` in the
source (both construction sites). -/
structure PacketConfig where
  DType : DataType
  Data : EtherConfig
deriving DecidableEq, Repr

structure MixConfig where
  Config : PacketConfig
  Quantity : Nat
deriving DecidableEq, Repr

/-- strings.ToLower (ASCII range; the recognized keys are all ASCII). -/
def lower (s : String) : String := ⟨s.data.map Char.toLower⟩

/-- The compiled pattern `^mix[0-9]*$`. -/
def mixMatch (s : String) : Bool :=
  match s.toList with
  | 'm' :: 'i' :: 'x' :: rest => rest.all Char.isDigit
  | _ => false

/-- Go conversion `uint32(f)` for a nonnegative integral float. -/
def toUInt32 (n : Int) : Nat := n.toNat % 4294967296

/-- Go conversion `uint16(f)` for a nonnegative integral float. -/
def toUInt16 (n : Int) : Nat := n.toNat % 65536

/-- Go conversion `uint8(f)` for a nonnegative integral float. -/
def toUInt8 (n : Int) : Nat := n.toNat % 256

/-- bytes.Compare: lexicographic, a proper prefix is smaller. -/
def bytesCompare : List Nat → List Nat → Ordering
  | [], [] => .eq
  | [], _ :: _ => .lt
  | _ :: _, [] => .gt
  | a :: as, b :: bs =>
    if a < b then .lt else if b < a then .gt else bytesCompare as bs

/-- Minimal big-endian byte representation of a natural number, written
with fuel (the number itself bounds the number of digits). -/
def natBytesAux (fuel : Nat) (n : Nat) (acc : List Nat) : List Nat :=
  match fuel with
  | 0 => acc
  | f + 1 => if n = 0 then acc else natBytesAux f (n / 256) (n % 256 :: acc)

/-- big.Int.Bytes of a natural number: minimal big-endian form, empty for 0. -/
def natBytes (n : Nat) : List Nat := natBytesAux n n []

/-- big.NewInt(i).Bytes(): the minimal big-endian bytes of the magnitude. -/
def bigBytes (i : Int) : List Nat := natBytes i.natAbs

/-- Big-endian value of a byte sequence. -/
def beVal (l : List Nat) : Nat := l.foldl (fun a d => a * 256 + d) 0

def hexVal (c : Char) : Option Nat :=
  if c.isDigit then some (c.toNat - 48)
  else if 97 ≤ c.toNat ∧ c.toNat ≤ 102 then some (c.toNat - 87)
  else if 65 ≤ c.toNat ∧ c.toNat ≤ 70 then some (c.toNat - 55)
  else none

def hexPair : List Char → Option Nat
  | [a, b] =>
    match hexVal a, hexVal b with
    | some x, some y => some (x * 16 + y)
    | _, _ => none
  | _ => none

/-- strings.Split on a one-character separator (empty parts preserved). -/
def splitOnCharAux (sep : Char) : List Char → List Char → List (List Char)
  | [], cur => [cur.reverse]
  | c :: rest, cur =>
    if c = sep then cur.reverse :: splitOnCharAux sep rest []
    else splitOnCharAux sep rest (c :: cur)

def splitOnChar (sep : Char) (l : List Char) : List (List Char) :=
  splitOnCharAux sep l []

/-- Modelled from the spec: `net.ParseMAC` of the Go standard library is not
under src/.  It accepts 6, 8 or 20 groups of two hex digits separated by
colons or hyphens (EUI-48, EUI-64, 20-octet IP over InfiniBand) and returns
the byte sequence; the dot-separated 4-digit grouping it also accepts is not
exercised by any claim and is omitted here. -/
def goParseMAC (s : String) : Option (List Nat) :=
  let parts :=
    if s.data.contains ':' then splitOnChar ':' s.data else splitOnChar '-' s.data
  if parts.length = 6 ∨ parts.length = 8 ∨ parts.length = 20 then
    let bytes := parts.map hexPair
    if bytes.all Option.isSome then some (bytes.map (fun o => o.getD 0)) else none
  else none

def decDigits : List Char → Nat → Option Nat
  | [], acc => some acc
  | c :: rest, acc =>
    if c.isDigit then decDigits rest (acc * 10 + (c.toNat - 48)) else none

def decByte (t : List Char) : Option Nat :=
  if t.length = 0 ∨ 3 < t.length then none
  else match decDigits t 0 with
    | some n => if n ≤ 255 then some n else none
    | Option.none => none

/-- Modelled from the spec: `net.ParseIP` of the Go standard library is not
under src/.  For a dotted quad a.b.c.d it returns the 16-byte
IPv4-in-IPv6 form; the textual IPv6 forms are not exercised by any claim
and are omitted here. -/
def goParseIP (s : String) : Option (List Nat) :=
  match splitOnChar '.' s.data with
  | [a, b, c, d] =>
    match decByte a, decByte b, decByte c, decByte d with
    | some x, some y, some z, some w =>
      some [0, 0, 0, 0, 0, 0, 0, 0, 0, 0, 255, 255, x, y, z, w]
    | _, _, _, _ => none
  | _ => none

def parseRawMACAddr (rawAddr : String) : Option (List Nat) := goParseMAC rawAddr

def parseRawIPAddr (rawAddr : String) : Option (List Nat) := goParseIP rawAddr

/-- parseRaw: the loop returns on its first iteration in every branch. -/
def parseRaw : List (String × JValue) → Except PError Raw
  | [] => .error PError.missingField
  | (k, v) :: _ =>
    if lower k = "data" then
      match v with
      | .str s => .ok ⟨s⟩
      | _ => .error PError.typeMismatch
    else .error (PError.unknownKey k)

/-- Loop body of parseRandBytes: keys other than size and deviation are
silently skipped (the switch has no default case). -/
def parseRandBytesAux : List (String × JValue) → RandBytes → Except PError RandBytes
  | [], rb => .ok rb
  | (k, v) :: rest, rb =>
    if lower k = "size" then
      match v with
      | .num n =>
        if n < 0 then .error PError.rangeInvalid
        else parseRandBytesAux rest { rb with Size := toUInt32 n }
      | _ => .error PError.typeMismatch
    else if lower k = "deviation" then
      match v with
      | .num n =>
        if n < 0 then .error PError.rangeInvalid
        else parseRandBytesAux rest { rb with Deviation := toUInt32 n }
      | _ => .error PError.typeMismatch
    else parseRandBytesAux rest rb

def parseRandBytes (fields : List (String × JValue)) : Except PError RandBytes :=
  match parseRandBytesAux fields ⟨0, 0⟩ with
  | .error e => .error e
  | .ok rb => if rb.Size < rb.Deviation then .error PError.rangeInvalid else .ok rb

def parsePdistEntryAux : List (String × JValue) → PDistEntry → Except PError PDistEntry
  | [], e => .ok e
  | (k, v) :: rest, e =>
    if lower k = "probability" then
      match v with
      | .num n =>
        if n > 1 ∨ n < 0 then .error PError.rangeInvalid
        else parsePdistEntryAux rest { e with Probability := n }
      | _ => .error PError.typeMismatch
    else if lower k = "raw" then
      match v with
      | .obj o =>
        match parseRaw o with
        | .error err => .error err
        | .ok r => parsePdistEntryAux rest { e with Data := .raw r, DType := .rawdata }
      | _ => .error PError.typeMismatch
    else if lower k = "randbytes" then
      match v with
      | .obj o =>
        match parseRandBytes o with
        | .error err => .error err
        | .ok r => parsePdistEntryAux rest { e with Data := .rand r, DType := .randdata }
      | _ => .error PError.typeMismatch
    else .error (PError.unknownKey k)

def parsePdistEntry (fields : List (String × JValue)) : Except PError PDistEntry :=
  parsePdistEntryAux fields ⟨0, .etherhdr, .none⟩

def parsePdist : List JValue → Except PError (List PDistEntry)
  | [] => .ok []
  | v :: rest =>
    match v with
    | .obj o =>
      match parsePdistEntry o with
      | .error e => .error e
      | .ok entry =>
        match parsePdist rest with
        | .error e => .error e
        | .ok es => .ok (entry :: es)
    | _ => .error PError.typeMismatch

/-- parseData: unrecognized keys are skipped (printed) and the loop goes on;
falling off the loop is the failed-to-parse-data error. -/
def parseData : List (String × JValue) → Except PError (PayloadD × DataType)
  | [] => .error PError.failedParseData
  | (k, v) :: rest =>
    if lower k = "raw" then
      match v with
      | .obj o =>
        match parseRaw o with
        | .error e => .error e
        | .ok r => .ok (.raw r, .rawdata)
      | _ => .error PError.typeMismatch
    else if lower k = "randbytes" then
      match v with
      | .obj o =>
        match parseRandBytes o with
        | .error e => .error e
        | .ok r => .ok (.rand r, .randdata)
      | _ => .error PError.typeMismatch
    else if lower k = "pdist" then
      match v with
      | .arr l =>
        match parsePdist l with
        | .error e => .error e
        | .ok es => .ok (.pdist es, .pdistdata)
      | _ => .error PError.typeMismatch
    else parseData rest

/-- parseSeq; `rnd` stands for the value rand.Uint32() returns. -/
def parseSeq (rnd : Nat) (s : String) : Except PError Sequence :=
  if lower s = "rand" ∨ lower s = "random" then .ok ⟨.random, rnd % 4294967296⟩
  else if lower s = "incr" ∨ lower s = "increasing" then .ok ⟨.increasing, 0⟩
  else .error (PError.badValue s)

/-- Modelled from the spec: the TCP flag bit constants live in the
repository's common package, which is not under src/; the spec fixes the
token set {fin,syn,rst,psh,ack,urg,ece,cwr} and one bit per flag, which are
the standard TCP header bits 0x01 .. 0x80 in that order. -/
def flagBit (s : String) : Option Nat :=
  if s = "fin" then some 1
  else if s = "syn" then some 2
  else if s = "rst" then some 4
  else if s = "psh" then some 8
  else if s = "ack" then some 16
  else if s = "urg" then some 32
  else if s = "ece" then some 64
  else if s = "cwr" then some 128
  else none

def parseTCPFlagsAux : List JValue → Nat → Except PError Nat
  | [], acc => .ok acc
  | v :: rest, acc =>
    match v with
    | .str s =>
      match flagBit (lower s) with
      | some b => parseTCPFlagsAux rest (Nat.xor acc b)
      | Option.none => .error (PError.badValue s)
    | _ => .error PError.typeMismatch

def parseTCPFlags (l : List JValue) : Except PError Nat := parseTCPFlagsAux l 0

def parsePortRangeAux :
    List (String × JValue) → PortRange → Bool → Bool → Bool → Bool →
    Except PError (PortRange × Bool × Bool × Bool × Bool)
  | [], pr, wmin, wmax, wstart, wincr => .ok (pr, wmin, wmax, wstart, wincr)
  | (k, v) :: rest, pr, wmin, wmax, wstart, wincr =>
    if lower k = "min" then
      match v with
      | .num n =>
        if n < 0 then .error PError.rangeInvalid
        else parsePortRangeAux rest { pr with Min := toUInt16 n } true wmax wstart wincr
      | _ => .error PError.typeMismatch
    else if lower k = "max" then
      match v with
      | .num n =>
        if n < 0 then .error PError.rangeInvalid
        else parsePortRangeAux rest { pr with Max := toUInt16 n } wmin true wstart wincr
      | _ => .error PError.typeMismatch
    else if lower k = "start" then
      match v with
      | .num n =>
        if n < 0 then .error PError.rangeInvalid
        else parsePortRangeAux rest { pr with Current := toUInt16 n } wmin wmax true wincr
      | _ => .error PError.typeMismatch
    else if lower k = "incr" then
      match v with
      | .num n =>
        if n < 0 then .error PError.rangeInvalid
        else parsePortRangeAux rest { pr with Incr := toUInt16 n } wmin wmax wstart true
      | _ => .error PError.typeMismatch
    else .error (PError.unknownKey k)

def parsePortRange (fields : List (String × JValue)) : Except PError PortRange :=
  match parsePortRangeAux fields ⟨0, 0, 0, 0⟩ false false false false with
  | .error e => .error e
  | .ok (pr, wmin, wmax, wstart, wincr) =>
    if ¬wmax ∨ ¬wmin then .error PError.missingField
    else if pr.Max < pr.Min then .error PError.rangeInvalid
    else
      let pr1 := if wstart then pr else { pr with Current := pr.Min }
      if pr1.Current < pr1.Min ∨ pr1.Max < pr1.Current then .error PError.rangeInvalid
      else if wincr then .ok pr1 else .ok { pr1 with Incr := 1 }

/-- parsePort: on a mapping only a first key `range` is accepted (the loop
returns in both branches); an empty mapping falls through to the
unknown-type error, a bare number is a singleton range with Incr 0. -/
def parsePort : JValue → Except PError PortRange
  | .obj fields =>
    match fields with
    | [] => .error PError.typeMismatch
    | (k, v) :: _ =>
      if lower k = "range" then
        match v with
        | .obj o => parsePortRange o
        | _ => .error PError.typeMismatch
      else .error (PError.unknownKey k)
  | .num n =>
    if n < 0 then .error PError.rangeInvalid
    else .ok ⟨toUInt16 n, toUInt16 n, toUInt16 n, 0⟩
  | _ => .error PError.typeMismatch

def parseAddrRangeAux (f : String → Option (List Nat)) :
    List (String × JValue) → AddrRange → Bool → Bool → Bool → Bool →
    Except PError (AddrRange × Bool × Bool × Bool × Bool)
  | [], a, wmin, wmax, wstart, wincr => .ok (a, wmin, wmax, wstart, wincr)
  | (k, v) :: rest, a, wmin, wmax, wstart, wincr =>
    if lower k = "min" then
      match v with
      | .str s =>
        match f s with
        | some mn => parseAddrRangeAux f rest { a with Min := mn } true wmax wstart wincr
        | Option.none => .error (PError.badValue s)
      | _ => .error PError.typeMismatch
    else if lower k = "max" then
      match v with
      | .str s =>
        match f s with
        | some mx => parseAddrRangeAux f rest { a with Max := mx } wmin true wstart wincr
        | Option.none => .error (PError.badValue s)
      | _ => .error PError.typeMismatch
    else if lower k = "start" then
      match v with
      | .str s =>
        match f s with
        | some st => parseAddrRangeAux f rest { a with Current := st } wmin wmax true wincr
        | Option.none => .error (PError.badValue s)
      | _ => .error PError.typeMismatch
    else if lower k = "incr" then
      match v with
      | .num n => parseAddrRangeAux f rest { a with Incr := bigBytes n } wmin wmax wstart true
      | _ => .error PError.typeMismatch
    else .error (PError.unknownKey k)

def parseAddrRange (fields : List (String × JValue)) (f : String → Option (List Nat)) :
    Except PError AddrRange :=
  match parseAddrRangeAux f fields ⟨[], [], [], []⟩ false false false false with
  | .error e => .error e
  | .ok (a, wmin, wmax, wstart, wincr) =>
    if ¬wmax ∨ ¬wmin then .error PError.missingField
    else if bytesCompare a.Max a.Min = .lt then .error PError.rangeInvalid
    else
      let a1 := if wstart then a else { a with Current := a.Min }
      if bytesCompare a1.Current a1.Min = .lt ∨ bytesCompare a1.Current a1.Max = .gt then
        .error PError.rangeInvalid
      else if wincr then .ok a1 else .ok { a1 with Incr := [1] }

/-- parseMacAddr: on a mapping only a first key `range` is accepted; a
literal string is decoded to a degenerate range with nil Incr. -/
def parseMacAddr : JValue → Except PError AddrRange
  | .obj fields =>
    match fields with
    | [] => .error PError.typeMismatch
    | (k, v) :: _ =>
      if lower k = "range" then
        match v with
        | .obj o => parseAddrRange o parseRawMACAddr
        | _ => .error PError.typeMismatch
      else .error (PError.unknownKey k)
  | .str s =>
    match parseRawMACAddr s with
    | some addr => .ok ⟨addr, addr, addr, []⟩
    | Option.none => .error (PError.badValue s)
  | _ => .error PError.typeMismatch

def parseIPAddr : JValue → Except PError AddrRange
  | .obj fields =>
    match fields with
    | [] => .error PError.typeMismatch
    | (k, v) :: _ =>
      if lower k = "range" then
        match v with
        | .obj o => parseAddrRange o parseRawIPAddr
        | _ => .error PError.typeMismatch
      else .error (PError.unknownKey k)
  | .str s =>
    match parseRawIPAddr s with
    | some addr => .ok ⟨addr, addr, addr, []⟩
    | Option.none => .error (PError.badValue s)
  | _ => .error PError.typeMismatch

def parseTCPHdrAux (rnd : Nat) : List (String × JValue) → TCPConfig → Except PError TCPConfig
  | [], c => .ok c
  | (k, v) :: rest, c =>
    if lower k = "sport" then
      match parsePort v with
      | .error e => .error e
      | .ok p => parseTCPHdrAux rnd rest { c with SPort := p }
    else if lower k = "dport" then
      match parsePort v with
      | .error e => .error e
      | .ok p => parseTCPHdrAux rnd rest { c with DPort := p }
    else if lower k = "seq" then
      match v with
      | .str s =>
        match parseSeq rnd s with
        | .error e => .error e
        | .ok sq => parseTCPHdrAux rnd rest { c with Seq := sq }
      | _ => .error PError.typeMismatch
    else if lower k = "flags" then
      match v with
      | .arr l =>
        match parseTCPFlags l with
        | .error e => .error e
        | .ok fl => parseTCPHdrAux rnd rest { c with Flags := fl }
      | _ => .error PError.typeMismatch
    else
      match parseData [(k, v)] with
      | .error e => .error e
      | .ok (d, dt) => parseTCPHdrAux rnd rest { c with Data := .payload d, DType := dt }

/-- parseTCPHdr; the struct literal leaves Seq, Flags, DType and Data at
their zero values, so DType starts as 0 = etherhdr. -/
def parseTCPHdr (rnd : Nat) (fields : List (String × JValue)) : Except PError TCPConfig :=
  parseTCPHdrAux rnd fields
    { SPort := ⟨0, 0, 0, 0⟩, DPort := ⟨0, 0, 0, 0⟩, Seq := ⟨.random, 0⟩,
      Flags := 0, DType := .etherhdr, Data := .none }

def parseUDPHdrAux (rnd : Nat) : List (String × JValue) → UDPConfig → Except PError UDPConfig
  | [], c => .ok c
  | (k, v) :: rest, c =>
    if lower k = "sport" then
      match parsePort v with
      | .error e => .error e
      | .ok p => parseUDPHdrAux rnd rest { c with SPort := p }
    else if lower k = "dport" then
      match parsePort v with
      | .error e => .error e
      | .ok p => parseUDPHdrAux rnd rest { c with DPort := p }
    else
      match parseData [(k, v)] with
      | .error e => .error e
      | .ok (d, dt) => parseUDPHdrAux rnd rest { c with Data := .payload d, DType := dt }

def parseUDPHdr (rnd : Nat) (fields : List (String × JValue)) : Except PError UDPConfig :=
  parseUDPHdrAux rnd fields
    { SPort := ⟨0, 0, 0, 0⟩, DPort := ⟨0, 0, 0, 0⟩, DType := .etherhdr, Data := .none }

def parseICMPHdrAux (rnd : Nat) : List (String × JValue) → ICMPConfig → Except PError ICMPConfig
  | [], c => .ok c
  | (k, v) :: rest, c =>
    if lower k = "type" then
      match v with
      | .num n => parseICMPHdrAux rnd rest { c with IType := toUInt8 n }
      | _ => .error PError.typeMismatch
    else if lower k = "code" then
      match v with
      | .num n => parseICMPHdrAux rnd rest { c with Code := toUInt8 n }
      | _ => .error PError.typeMismatch
    else if lower k = "identifier" ∨ lower k = "id" then
      match v with
      | .num n => parseICMPHdrAux rnd rest { c with Identifier := toUInt16 n }
      | _ => .error PError.typeMismatch
    else if lower k = "seq" ∨ lower k = "seqnum" then
      match v with
      | .str s =>
        match parseSeq rnd s with
        | .error e => .error e
        | .ok sq => parseICMPHdrAux rnd rest { c with Seq := sq }
      | _ => .error PError.typeMismatch
    else
      match parseData [(k, v)] with
      | .error e => .error e
      | .ok (d, dt) => parseICMPHdrAux rnd rest { c with Data := .payload d, DType := dt }

/-- parseICMPHdr; the struct literal sets only Data (to an empty Raw), so its
DType starts as the zero value 0 = etherhdr. -/
def parseICMPHdr (rnd : Nat) (fields : List (String × JValue)) : Except PError ICMPConfig :=
  parseICMPHdrAux rnd fields
    { IType := 0, Code := 0, Identifier := 0, Seq := ⟨.random, 0⟩,
      DType := .etherhdr, Data := .payload (.raw ⟨""⟩) }

def parseARPHdrAux : List (String × JValue) → ARPConfig → Except PError ARPConfig
  | [], c => .ok c
  | (k, v) :: rest, c =>
    if lower k = "opcode" then
      match v with
      | .num n =>
        if n < 1 ∨ 2 < n then .error PError.rangeInvalid
        else parseARPHdrAux rest { c with Operation := toUInt16 n }
      | _ => .error PError.typeMismatch
    else if lower k = "gratuitous" then
      match v with
      | .bool b => parseARPHdrAux rest { c with Gratuitous := b }
      | _ => .error PError.typeMismatch
    else if lower k = "sha" then
      match parseMacAddr v with
      | .error e => .error e
      | .ok a => parseARPHdrAux rest { c with SHA := a }
    else if lower k = "spa" then
      match parseIPAddr v with
      | .error e => .error e
      | .ok a => parseARPHdrAux rest { c with SPA := a }
    else if lower k = "tha" then
      match parseMacAddr v with
      | .error e => .error e
      | .ok a => parseARPHdrAux rest { c with THA := a }
    else if lower k = "tpa" then
      match parseIPAddr v with
      | .error e => .error e
      | .ok a => parseARPHdrAux rest { c with TPA := a }
    else .error (PError.unknownKey k)

def parseARPHdr (fields : List (String × JValue)) : Except PError ARPConfig :=
  parseARPHdrAux fields
    { Operation := 1, Gratuitous := false, SHA := ⟨[], [], [], []⟩,
      SPA := ⟨[], [], [], []⟩, THA := ⟨[], [], [], []⟩, TPA := ⟨[], [], [], []⟩ }

def parseIPHdrAux (rnd : Nat) : List (String × JValue) → IPConfig → Except PError IPConfig
  | [], c => .ok c
  | (k, v) :: rest, c =>
    if lower k = "version" then
      match v with
      | .num n =>
        if n ≠ 4 ∧ n ≠ 6 then .error PError.rangeInvalid
        else parseIPHdrAux rnd rest { c with Version := n }
      | _ => .error PError.typeMismatch
    else if lower k = "saddr" then
      match parseIPAddr v with
      | .error e => .error e
      | .ok a => parseIPHdrAux rnd rest { c with SAddr := a }
    else if lower k = "daddr" then
      match parseIPAddr v with
      | .error e => .error e
      | .ok a => parseIPHdrAux rnd rest { c with DAddr := a }
    else if lower k = "tcp" then
      match v with
      | .obj o =>
        match parseTCPHdr rnd o with
        | .error e => .error e
        | .ok t => parseIPHdrAux rnd rest { c with Data := .tcp t, DType := .tcphdr }
      | _ => .error PError.typeMismatch
    else if lower k = "udp" then
      match v with
      | .obj o =>
        match parseUDPHdr rnd o with
        | .error e => .error e
        | .ok u => parseIPHdrAux rnd rest { c with Data := .udp u, DType := .udphdr }
      | _ => .error PError.typeMismatch
    else if lower k = "icmp" then
      match v with
      | .obj o =>
        match parseICMPHdr rnd o with
        | .error e => .error e
        | .ok i => parseIPHdrAux rnd rest { c with Data := .icmp i, DType := .icmphdr }
      | _ => .error PError.typeMismatch
    else
      match parseData [(k, v)] with
      | .error e => .error e
      | .ok (d, dt) => parseIPHdrAux rnd rest { c with Data := .payload d, DType := dt }

/-- parseIPHdr; the struct literal sets Version to 4 and the addresses, so
DType starts as the zero value 0 = etherhdr. -/
def parseIPHdr (rnd : Nat) (fields : List (String × JValue)) : Except PError IPConfig :=
  parseIPHdrAux rnd fields
    { Version := 4, SAddr := ⟨[], [], [], []⟩, DAddr := ⟨[], [], [], []⟩,
      DType := .etherhdr, Data := .none }

def parseEtherHdrAux (rnd : Nat) : List (String × JValue) → EtherConfig → Except PError EtherConfig
  | [], c => .ok c
  | (k, v) :: rest, c =>
    if lower k = "saddr" then
      match parseMacAddr v with
      | .error e => .error e
      | .ok a => parseEtherHdrAux rnd rest { c with SAddr := a }
    else if lower k = "daddr" then
      match parseMacAddr v with
      | .error e => .error e
      | .ok a => parseEtherHdrAux rnd rest { c with DAddr := a }
    else if lower k = "vlan-tci" then
      match v with
      | .num n => parseEtherHdrAux rnd rest { c with VLAN := some ⟨toUInt16 n⟩ }
      | _ => .error PError.typeMismatch
    else if lower k = "ip" then
      match v with
      | .obj o =>
        match parseIPHdr rnd o with
        | .error e => .error e
        | .ok ipc => parseEtherHdrAux rnd rest { c with Data := .ip ipc, DType := .iphdr }
      | _ => .error PError.typeMismatch
    else if lower k = "arp" then
      match v with
      | .obj o =>
        match parseARPHdr o with
        | .error e => .error e
        | .ok ac => parseEtherHdrAux rnd rest { c with Data := .arp ac, DType := .arphdr }
      | _ => .error PError.typeMismatch
    else
      match parseData [(k, v)] with
      | .error e => .error e
      | .ok (d, dt) => parseEtherHdrAux rnd rest { c with Data := .payload d, DType := dt }

/-- parseEtherHdr; the only builder whose struct literal sets DType
explicitly, and it sets it to NONE. -/
def parseEtherHdr (rnd : Nat) (fields : List (String × JValue)) : Except PError EtherConfig :=
  parseEtherHdrAux rnd fields
    { DAddr := ⟨[], [], [], []⟩, SAddr := ⟨[], [], [], []⟩, VLAN := Option.none,
      DType := DataType.none, Data := EtherChild.none }

/-- Inner loop of ParseMixConfig over one mix* entry: accumulates the
optional packet config and the quantity, failing on unrecognized keys. -/
def parseMixUnit (rnd : Nat) :
    List (String × JValue) → Option PacketConfig → Nat →
    Except PError (Option PacketConfig × Nat)
  | [], p, q => .ok (p, q)
  | (kk, vv) :: rest, p, q =>
    if lower kk = "ether" then
      match vv with
      | .obj ec =>
        match parseEtherHdr rnd ec with
        | .error e => .error e
        | .ok eh => parseMixUnit rnd rest (some ⟨.etherhdr, eh⟩) q
      | _ => .error PError.typeMismatch
    else if lower kk = "quantity" ∨ lower kk = "q" then
      match vv with
      | .num n => parseMixUnit rnd rest p (toUInt32 n)
      | _ => .error PError.typeMismatch
    else .error (PError.unknownKey kk)

/-- Outer loop of ParseMixConfig; every error site in the source returns a
nil slice together with the error, so the result is the pair of both Go
return values. -/
def ParseMixConfigAux (rnd : Nat) :
    List (String × JValue) → List MixConfig → List MixConfig × Option PError
  | [], acc => (acc, Option.none)
  | (k, v) :: rest, acc =>
    if mixMatch (lower k) then
      match v with
      | .obj mixUnit =>
        match parseMixUnit rnd mixUnit Option.none 0 with
        | .error e => ([], some e)
        | .ok (p, q) =>
          if q = 0 ∨ p = Option.none then ([], some PError.missingField)
          else
            match p with
            | some pkt => ParseMixConfigAux rnd rest (acc ++ [⟨pkt, q⟩])
            | Option.none => ([], some PError.missingField)
      | _ => ([], some PError.typeMismatch)
    else ([], some (PError.unknownKey k))

def ParseMixConfig (rnd : Nat) (doc : List (String × JValue)) :
    List MixConfig × Option PError :=
  ParseMixConfigAux rnd doc []

/-- ParseConfig after the JSON decode step: every branch of the range loop
returns on the first key, and an empty document is the missing-ether
error. -/
def ParseConfig (rnd : Nat) (doc : List (String × JValue)) :
    List MixConfig × Option PError :=
  match doc with
  | [] => ([], some PError.missingField)
  | (k, v) :: _ =>
    if lower k = "ether" then
      match v with
      | .obj ec =>
        match parseEtherHdr rnd ec with
        | .error e => ([], some e)
        | .ok eh => ([⟨⟨.etherhdr, eh⟩, 1⟩], Option.none)
      | _ => ([], some PError.typeMismatch)
    else if mixMatch (lower k) then ParseMixConfig rnd doc
    else ([], some (PError.unknownKey k))

/-- Canonical shape of an address-range block: required min and max,
optional start and incr. -/
def rangeBlock (minS maxS : String) (startS : Option String) (incrN : Option Int) :
    List (String × JValue) :=
  [("min", JValue.str minS), ("max", JValue.str maxS)] ++
  (match startS with | some s => [("start", JValue.str s)] | Option.none => []) ++
  (match incrN with | some n => [("incr", JValue.num n)] | Option.none => [])

/-- Canonical shape of a mix* entry: optional ether block and optional
quantity field. -/
def mixEntryDoc (etherB : Option (List (String × JValue))) (qN : Option Int) :
    List (String × JValue) :=
  (match etherB with | some eb => [("ether", JValue.obj eb)] | Option.none => []) ++
  (match qN with | some n => [("quantity", JValue.num n)] | Option.none => [])

/-- Boolean success test for Except results. -/
def isOkb {α : Type} : Except PError α → Bool
  | .ok _ => true
  | .error _ => false

theorem bytesCompare_self (a : List Nat) : bytesCompare a a = .eq := by
  induction a with
  | nil => rfl
  | cons x as ih => simp [bytesCompare, ih]

theorem bytesCompare_swap : ∀ (a b : List Nat), bytesCompare b a = (bytesCompare a b).swap
  | [], [] => rfl
  | [], _ :: _ => rfl
  | _ :: _, [] => rfl
  | x :: as, y :: bs => by
    simp only [bytesCompare]
    rcases Nat.lt_trichotomy x y with h | h | h
    · simp [h, Nat.not_lt.mpr (le_of_lt h), Ordering.swap]
    · subst h
      simp [Nat.lt_irrefl, bytesCompare_swap as bs]
    · simp [h, Nat.not_lt.mpr (le_of_lt h), Ordering.swap]

theorem bytesCompare_ne_gt_of_swap {a b : List Nat} (h : bytesCompare a b ≠ .lt) :
    bytesCompare b a ≠ .gt := by
  intro hgt
  rw [bytesCompare_swap a b] at hgt
  cases hc : bytesCompare a b <;> rw [hc] at hgt <;> simp [Ordering.swap] at hgt
  exact h hc

theorem beVal_foldl (l : List Nat) :
    ∀ acc, l.foldl (fun a d => a * 256 + d) acc = acc * 256 ^ l.length + beVal l := by
  induction l with
  | nil => intro acc; simp [beVal]
  | cons d l ih =>
    intro acc
    have hcons : beVal (d :: l) = d * 256 ^ l.length + beVal l := by
      show List.foldl (fun a d => a * 256 + d) (0 * 256 + d) l = _
      rw [show 0 * 256 + d = d by ring, ih d]
    simp only [List.foldl_cons, List.length_cons, hcons]
    rw [ih (acc * 256 + d)]
    ring

theorem beVal_cons (d : Nat) (l : List Nat) :
    beVal (d :: l) = d * 256 ^ l.length + beVal l := by
  show List.foldl (fun a d => a * 256 + d) (0 * 256 + d) l = _
  rw [show 0 * 256 + d = d by ring, beVal_foldl l d]

theorem beVal_lt_pow (l : List Nat) (h : ∀ d ∈ l, d < 256) :
    beVal l < 256 ^ l.length := by
  induction l with
  | nil => simp [beVal]
  | cons d l ih =>
    have hd : d < 256 := h d (List.mem_cons_self _ _)
    have hl := ih (fun x hx => h x (List.mem_cons_of_mem _ hx))
    rw [beVal_cons, List.length_cons, pow_succ]
    calc d * 256 ^ l.length + beVal l < d * 256 ^ l.length + 256 ^ l.length := by omega
      _ = (d + 1) * 256 ^ l.length := by ring
      _ ≤ 256 * 256 ^ l.length := Nat.mul_le_mul_right _ (by omega)
      _ = 256 ^ l.length * 256 := by ring

theorem bytesCompare_eq_compare :
    ∀ (a b : List Nat), a.length = b.length →
      (∀ d ∈ a, d < 256) → (∀ d ∈ b, d < 256) →
      bytesCompare a b = compare (beVal a) (beVal b)
  | [], [], _, _, _ => by simp [bytesCompare, beVal, Nat.compare_eq_eq.mpr rfl]
  | [], _ :: _, h, _, _ => by simp at h
  | _ :: _, [], h, _, _ => by simp at h
  | x :: as, y :: bs, hlen, ha, hb => by
    have hlen2 : as.length = bs.length := by simpa using hlen
    have hA : beVal as < 256 ^ as.length :=
      beVal_lt_pow as (fun d hd => ha d (List.mem_cons_of_mem _ hd))
    have hB : beVal bs < 256 ^ bs.length :=
      beVal_lt_pow bs (fun d hd => hb d (List.mem_cons_of_mem _ hd))
    rw [beVal_cons, beVal_cons, ← hlen2]
    rcases Nat.lt_trichotomy x y with hxy | hxy | hxy
    · have hlt : x * 256 ^ as.length + beVal as < y * 256 ^ as.length + beVal bs := by
        calc x * 256 ^ as.length + beVal as < x * 256 ^ as.length + 256 ^ as.length := by omega
          _ = (x + 1) * 256 ^ as.length := by ring
          _ ≤ y * 256 ^ as.length := Nat.mul_le_mul_right _ (by omega)
          _ ≤ y * 256 ^ as.length + beVal bs := Nat.le_add_right _ _
      simp [bytesCompare, hxy, Nat.compare_eq_lt.mpr hlt]
    · subst hxy
      have hrec := bytesCompare_eq_compare as bs hlen2
        (fun d hd => ha d (List.mem_cons_of_mem _ hd))
        (fun d hd => hb d (List.mem_cons_of_mem _ hd))
      have hcmp : compare (x * 256 ^ as.length + beVal as) (x * 256 ^ as.length + beVal bs)
          = compare (beVal as) (beVal bs) := by
        rcases Nat.lt_trichotomy (beVal as) (beVal bs) with hc | hc | hc
        · rw [Nat.compare_eq_lt.mpr hc, Nat.compare_eq_lt.mpr (by omega)]
        · rw [hc, Nat.compare_eq_eq.mpr rfl, Nat.compare_eq_eq.mpr rfl]
        · rw [Nat.compare_eq_gt.mpr hc, Nat.compare_eq_gt.mpr (by omega)]
      simp [bytesCompare, Nat.lt_irrefl, hcmp, hrec]
    · have hlt : y * 256 ^ as.length + beVal bs < x * 256 ^ as.length + beVal as := by
        calc y * 256 ^ as.length + beVal bs < y * 256 ^ as.length + 256 ^ as.length := by
              rw [hlen2] at *; omega
          _ = (y + 1) * 256 ^ as.length := by ring
          _ ≤ x * 256 ^ as.length := Nat.mul_le_mul_right _ (by omega)
          _ ≤ x * 256 ^ as.length + beVal as := Nat.le_add_right _ _
      simp [bytesCompare, hxy, Nat.not_lt.mpr (le_of_lt hxy), Nat.compare_eq_gt.mpr hlt]

theorem beVal_le_of_ne_lt {a b : List Nat} (hlen : a.length = b.length)
    (ha : ∀ d ∈ a, d < 256) (hb : ∀ d ∈ b, d < 256)
    (h : bytesCompare a b ≠ .lt) : beVal b ≤ beVal a := by
  rw [bytesCompare_eq_compare a b hlen ha hb] at h
  exact le_of_not_lt (fun hc => h (Nat.compare_eq_lt.mpr hc))

theorem beVal_le_of_ne_gt {a b : List Nat} (hlen : a.length = b.length)
    (ha : ∀ d ∈ a, d < 256) (hb : ∀ d ∈ b, d < 256)
    (h : bytesCompare a b ≠ .gt) : beVal a ≤ beVal b := by
  rw [bytesCompare_eq_compare a b hlen ha hb] at h
  exact le_of_not_lt (fun hc => h (Nat.compare_eq_gt.mpr hc))

theorem mixAuxErr (rnd : Nat) :
    ∀ (l : List (String × JValue)) (acc : List MixConfig),
      ((ParseMixConfigAux rnd l acc).2).isSome → (ParseMixConfigAux rnd l acc).1 = [] := by
  intro l
  induction l with
  | nil => intro acc h; simp [ParseMixConfigAux] at h
  | cons p rest ih =>
    intro acc h
    obtain ⟨k, v⟩ := p
    by_cases hm : mixMatch (lower k) = true
    · cases v with
      | obj mixUnit =>
        simp only [ParseMixConfigAux, hm, if_true] at h ⊢
        cases hu : parseMixUnit rnd mixUnit Option.none 0 with
        | error e => simp [hu]
        | ok pq =>
          obtain ⟨p, q⟩ := pq
          simp only [hu] at h ⊢
          by_cases hq : q = 0 ∨ p = Option.none
          · simp [hq]
          · simp only [hq, if_false] at h ⊢
            cases p with
            | none => simp at hq
            | some pkt => exact ih _ h
      | num n => simp [ParseMixConfigAux, hm]
      | str s => simp [ParseMixConfigAux, hm]
      | bool b => simp [ParseMixConfigAux, hm]
      | arr l => simp [ParseMixConfigAux, hm]
    · simp [ParseMixConfigAux, hm]

theorem mixAuxBad (rnd : Nat) :
    ∀ (l : List (String × JValue)) (acc : List MixConfig),
      (∃ p ∈ l, mixMatch (lower p.1) = false) →
      ((ParseMixConfigAux rnd l acc).2).isSome ∧ (ParseMixConfigAux rnd l acc).1 = [] := by
  intro l
  induction l with
  | nil => intro acc h; simp at h
  | cons p rest ih =>
    intro acc h
    obtain ⟨k, v⟩ := p
    by_cases hm : mixMatch (lower k) = true
    · have htail : ∃ p ∈ rest, mixMatch (lower p.1) = false := by
        rcases h with ⟨q, hq, hbad⟩
        rcases List.mem_cons.mp hq with h1 | h2
        · subst h1; simp [hm] at hbad
        · exact ⟨q, h2, hbad⟩
      cases v with
      | obj mixUnit =>
        simp only [ParseMixConfigAux, hm, if_true]
        cases hu : parseMixUnit rnd mixUnit Option.none 0 with
        | error e => simp
        | ok pq =>
          obtain ⟨p, q⟩ := pq
          by_cases hq : q = 0 ∨ p = Option.none
          · simp [hq]
          · simp only [hq, if_false]
            cases p with
            | none => simp at hq
            | some pkt => exact ih _ htail
      | num n => simp [ParseMixConfigAux, hm]
      | str s => simp [ParseMixConfigAux, hm]
      | bool b => simp [ParseMixConfigAux, hm]
      | arr l => simp [ParseMixConfigAux, hm]
    · simp [ParseMixConfigAux, hm]

theorem randAuxSkip (k : String) (v : JValue) (h1 : lower k ≠ "size") (h2 : lower k ≠ "deviation") :
    ∀ (l1 l2 : List (String × JValue)) (rb : RandBytes),
      parseRandBytesAux (l1 ++ (k, v) :: l2) rb = parseRandBytesAux (l1 ++ l2) rb := by
  intro l1
  induction l1 with
  | nil => intro l2 rb; simp [parseRandBytesAux, h1, h2]
  | cons p rest ih =>
    intro l2 rb
    obtain ⟨k1, v1⟩ := p
    simp only [List.cons_append, parseRandBytesAux]
    by_cases hs : lower k1 = "size"
    · simp only [hs, if_true]
      cases v1 with
      | num n =>
        by_cases hn : n < 0
        · simp [hn]
        · simp only [hn, if_false]; exact ih l2 _
      | str s => rfl
      | bool b => rfl
      | obj o => rfl
      | arr a => rfl
    · by_cases hdv : lower k1 = "deviation"
      · simp only [hs, if_false, hdv, if_true]
        cases v1 with
        | num n =>
          by_cases hn : n < 0
          · simp [hn]
          · simp only [hn, if_false]; exact ih l2 _
        | str s => rfl
        | bool b => rfl
        | obj o => rfl
        | arr a => rfl
      · simp only [hs, if_false, hdv]
        exact ih l2 rb

theorem tcpFlagsAuxOk :
    ∀ (l : List String) (acc : Nat), (∀ s ∈ l, (flagBit (lower s)).isSome) →
      parseTCPFlagsAux (l.map JValue.str) acc =
        .ok (l.foldl (fun a s => Nat.xor a ((flagBit (lower s)).getD 0)) acc) := by
  intro l
  induction l with
  | nil => intro acc h; rfl
  | cons s rest ih =>
    intro acc h
    have hs := h s (List.mem_cons_self _ _)
    obtain ⟨b, hb⟩ := Option.isSome_iff_exists.mp hs
    simp only [List.map_cons, parseTCPFlagsAux, hb, List.foldl_cons]
    rw [ih _ (fun t ht => h t (List.mem_cons_of_mem _ ht))]
    simp [hb]

theorem tcpFlagsAuxErr :
    ∀ (l : List String) (acc : Nat), (∃ s ∈ l, flagBit (lower s) = Option.none) →
      ∃ e, parseTCPFlagsAux (l.map JValue.str) acc = .error e := by
  intro l
  induction l with
  | nil => intro acc h; simp at h
  | cons s rest ih =>
    intro acc h
    cases hb : flagBit (lower s) with
    | none => exact ⟨PError.badValue s, by simp [parseTCPFlagsAux, hb]⟩
    | some b =>
      have htail : ∃ t ∈ rest, flagBit (lower t) = Option.none := by
        rcases h with ⟨t, ht, hbad⟩
        rcases List.mem_cons.mp ht with h1 | h2
        · subst h1; rw [hb] at hbad; cases hbad
        · exact ⟨t, h2, hbad⟩
      obtain ⟨e, he⟩ := ih (Nat.xor acc b) htail
      exact ⟨e, by simp [parseTCPFlagsAux, hb, he]⟩

theorem parseDataSingleErr (k : String) (v : JValue)
    (h1 : lower k ≠ "raw") (h2 : lower k ≠ "randbytes") (h3 : lower k ≠ "pdist") :
    parseData [(k, v)] = .error PError.failedParseData := by
  simp [parseData, h1, h2, h3]

theorem ipAuxDType (rnd : Nat) :
    ∀ (fields : List (String × JValue)) (c0 c : IPConfig),
      (∀ p ∈ fields, lower p.1 ≠ "tcp" ∧ lower p.1 ≠ "udp" ∧ lower p.1 ≠ "icmp" ∧
        lower p.1 ≠ "raw" ∧ lower p.1 ≠ "randbytes" ∧ lower p.1 ≠ "pdist") →
      parseIPHdrAux rnd fields c0 = .ok c → c.DType = c0.DType := by
  intro fields
  induction fields with
  | nil =>
    intro c0 c h hp
    simp only [parseIPHdrAux] at hp
    cases hp
    rfl
  | cons p rest ih =>
    intro c0 c h hp
    obtain ⟨k, v⟩ := p
    obtain ⟨hk1, hk2, hk3, hk4, hk5, hk6⟩ := h (k, v) (List.mem_cons_self _ _)
    have htail := fun q hq => h q (List.mem_cons_of_mem _ hq)
    by_cases hv : lower k = "version"
    · cases v with
      | num n =>
        simp only [parseIPHdrAux, hv, if_true] at hp
        by_cases hn : n ≠ 4 ∧ n ≠ 6
        · simp [hn] at hp
        · simp only [hn, if_false] at hp
          have hd := ih _ c htail hp
          simpa using hd
      | str s => simp [parseIPHdrAux, hv] at hp
      | bool b => simp [parseIPHdrAux, hv] at hp
      | obj o => simp [parseIPHdrAux, hv] at hp
      | arr a => simp [parseIPHdrAux, hv] at hp
    · by_cases hsa : lower k = "saddr"
      · simp [parseIPHdrAux, hv, hsa] at hp
        cases hpa : parseIPAddr v with
        | error e => rw [hpa] at hp; cases hp
        | ok a =>
          rw [hpa] at hp
          have hd := ih _ c htail hp
          simpa using hd
      · by_cases hda : lower k = "daddr"
        · simp [parseIPHdrAux, hv, hsa, hda] at hp
          cases hpa : parseIPAddr v with
          | error e => rw [hpa] at hp; cases hp
          | ok a =>
            rw [hpa] at hp
            have hd := ih _ c htail hp
            simpa using hd
        · simp [parseIPHdrAux, hv, hsa, hda, hk1, hk2, hk3,
            parseDataSingleErr k v hk4 hk5 hk6] at hp

theorem tcpAuxDType (rnd : Nat) :
    ∀ (fields : List (String × JValue)) (c0 c : TCPConfig),
      (∀ p ∈ fields, lower p.1 ≠ "raw" ∧ lower p.1 ≠ "randbytes" ∧ lower p.1 ≠ "pdist") →
      parseTCPHdrAux rnd fields c0 = .ok c → c.DType = c0.DType := by
  intro fields
  induction fields with
  | nil =>
    intro c0 c h hp
    simp only [parseTCPHdrAux] at hp
    cases hp
    rfl
  | cons p rest ih =>
    intro c0 c h hp
    obtain ⟨k, v⟩ := p
    obtain ⟨hk1, hk2, hk3⟩ := h (k, v) (List.mem_cons_self _ _)
    have htail := fun q hq => h q (List.mem_cons_of_mem _ hq)
    by_cases hsp : lower k = "sport"
    · simp [parseTCPHdrAux, hsp] at hp
      cases hpa : parsePort v with
      | error e => rw [hpa] at hp; cases hp
      | ok a =>
        rw [hpa] at hp
        have hd := ih _ c htail hp
        simpa using hd
    · by_cases hdp : lower k = "dport"
      · simp [parseTCPHdrAux, hsp, hdp] at hp
        cases hpa : parsePort v with
        | error e => rw [hpa] at hp; cases hp
        | ok a =>
          rw [hpa] at hp
          have hd := ih _ c htail hp
          simpa using hd
      · by_cases hsq : lower k = "seq"
        · cases v with
          | str s =>
            simp [parseTCPHdrAux, hsp, hdp, hsq] at hp
            cases hpa : parseSeq rnd s with
            | error e => rw [hpa] at hp; cases hp
            | ok sq =>
              rw [hpa] at hp
              have hd := ih _ c htail hp
              simpa using hd
          | num n => simp [parseTCPHdrAux, hsp, hdp, hsq] at hp
          | bool b => simp [parseTCPHdrAux, hsp, hdp, hsq] at hp
          | obj o => simp [parseTCPHdrAux, hsp, hdp, hsq] at hp
          | arr a => simp [parseTCPHdrAux, hsp, hdp, hsq] at hp
        · by_cases hfl : lower k = "flags"
          · cases v with
            | arr l =>
              simp [parseTCPHdrAux, hsp, hdp, hsq, hfl] at hp
              cases hpa : parseTCPFlags l with
              | error e => rw [hpa] at hp; cases hp
              | ok fl =>
                rw [hpa] at hp
                have hd := ih _ c htail hp
                simpa using hd
            | num n => simp [parseTCPHdrAux, hsp, hdp, hsq, hfl] at hp
            | bool b => simp [parseTCPHdrAux, hsp, hdp, hsq, hfl] at hp
            | obj o => simp [parseTCPHdrAux, hsp, hdp, hsq, hfl] at hp
            | str s => simp [parseTCPHdrAux, hsp, hdp, hsq, hfl] at hp
          · simp [parseTCPHdrAux, hsp, hdp, hsq, hfl,
              parseDataSingleErr k v hk1 hk2 hk3] at hp

theorem udpAuxDType (rnd : Nat) :
    ∀ (fields : List (String × JValue)) (c0 c : UDPConfig),
      (∀ p ∈ fields, lower p.1 ≠ "raw" ∧ lower p.1 ≠ "randbytes" ∧ lower p.1 ≠ "pdist") →
      parseUDPHdrAux rnd fields c0 = .ok c → c.DType = c0.DType := by
  intro fields
  induction fields with
  | nil =>
    intro c0 c h hp
    simp only [parseUDPHdrAux] at hp
    cases hp
    rfl
  | cons p rest ih =>
    intro c0 c h hp
    obtain ⟨k, v⟩ := p
    obtain ⟨hk1, hk2, hk3⟩ := h (k, v) (List.mem_cons_self _ _)
    have htail := fun q hq => h q (List.mem_cons_of_mem _ hq)
    by_cases hsp : lower k = "sport"
    · simp [parseUDPHdrAux, hsp] at hp
      cases hpa : parsePort v with
      | error e => rw [hpa] at hp; cases hp
      | ok a =>
        rw [hpa] at hp
        have hd := ih _ c htail hp
        simpa using hd
    · by_cases hdp : lower k = "dport"
      · simp [parseUDPHdrAux, hsp, hdp] at hp
        cases hpa : parsePort v with
        | error e => rw [hpa] at hp; cases hp
        | ok a =>
          rw [hpa] at hp
          have hd := ih _ c htail hp
          simpa using hd
      · simp [parseUDPHdrAux, hsp, hdp,
          parseDataSingleErr k v hk1 hk2 hk3] at hp

theorem icmpAuxDType (rnd : Nat) :
    ∀ (fields : List (String × JValue)) (c0 c : ICMPConfig),
      (∀ p ∈ fields, lower p.1 ≠ "raw" ∧ lower p.1 ≠ "randbytes" ∧ lower p.1 ≠ "pdist") →
      parseICMPHdrAux rnd fields c0 = .ok c → c.DType = c0.DType := by
  intro fields
  induction fields with
  | nil =>
    intro c0 c h hp
    simp only [parseICMPHdrAux] at hp
    cases hp
    rfl
  | cons p rest ih =>
    intro c0 c h hp
    obtain ⟨k, v⟩ := p
    obtain ⟨hk1, hk2, hk3⟩ := h (k, v) (List.mem_cons_self _ _)
    have htail := fun q hq => h q (List.mem_cons_of_mem _ hq)
    by_cases hty : lower k = "type"
    · cases v with
      | num n =>
        simp [parseICMPHdrAux, hty] at hp
        have hd := ih _ c htail hp
        simpa using hd
      | str s => simp [parseICMPHdrAux, hty] at hp
      | bool b => simp [parseICMPHdrAux, hty] at hp
      | obj o => simp [parseICMPHdrAux, hty] at hp
      | arr a => simp [parseICMPHdrAux, hty] at hp
    · by_cases hco : lower k = "code"
      · cases v with
        | num n =>
          simp [parseICMPHdrAux, hty, hco] at hp
          have hd := ih _ c htail hp
          simpa using hd
        | str s => simp [parseICMPHdrAux, hty, hco] at hp
        | bool b => simp [parseICMPHdrAux, hty, hco] at hp
        | obj o => simp [parseICMPHdrAux, hty, hco] at hp
        | arr a => simp [parseICMPHdrAux, hty, hco] at hp
      · by_cases hid : lower k = "identifier" ∨ lower k = "id"
        · cases v with
          | num n =>
            simp [parseICMPHdrAux, hty, hco, hid] at hp
            have hd := ih _ c htail hp
            simpa using hd
          | str s => simp [parseICMPHdrAux, hty, hco, hid] at hp
          | bool b => simp [parseICMPHdrAux, hty, hco, hid] at hp
          | obj o => simp [parseICMPHdrAux, hty, hco, hid] at hp
          | arr a => simp [parseICMPHdrAux, hty, hco, hid] at hp
        · by_cases hsq : lower k = "seq" ∨ lower k = "seqnum"
          · cases v with
            | str s =>
              simp [parseICMPHdrAux, hty, hco, hid, hsq] at hp
              cases hpa : parseSeq rnd s with
              | error e => rw [hpa] at hp; cases hp
              | ok sq =>
                rw [hpa] at hp
                have hd := ih _ c htail hp
                simpa using hd
            | num n => simp [parseICMPHdrAux, hty, hco, hid, hsq] at hp
            | bool b => simp [parseICMPHdrAux, hty, hco, hid, hsq] at hp
            | obj o => simp [parseICMPHdrAux, hty, hco, hid, hsq] at hp
            | arr a => simp [parseICMPHdrAux, hty, hco, hid, hsq] at hp
          · simp [parseICMPHdrAux, hty, hco, hid, hsq,
              parseDataSingleErr k v hk1 hk2 hk3] at hp

theorem addrRangeOkFacts (fields : List (String × JValue)) (f : String → Option (List Nat))
    (ar : AddrRange) (h : parseAddrRange fields f = .ok ar) :
    bytesCompare ar.Max ar.Min ≠ .lt ∧ bytesCompare ar.Current ar.Min ≠ .lt ∧
      bytesCompare ar.Current ar.Max ≠ .gt := by
  unfold parseAddrRange at h
  cases haux : parseAddrRangeAux f fields ⟨[], [], [], []⟩ false false false false with
  | error e => rw [haux] at h; cases h
  | ok res =>
    rw [haux] at h
    obtain ⟨a, wmin, wmax, wstart, wincr⟩ := res
    by_cases h1 : ¬wmax ∨ ¬wmin
    · simp only [h1, if_true] at h; cases h
    · simp only [h1, if_false] at h
      by_cases h2 : bytesCompare a.Max a.Min = .lt
      · simp only [h2, if_true] at h; cases h
      · simp only [h2, if_false] at h
        cases wstart with
        | true =>
          simp only [if_true] at h
          by_cases h3 : bytesCompare a.Current a.Min = .lt ∨ bytesCompare a.Current a.Max = .gt
          · simp only [h3, if_true] at h; cases h
          · simp only [h3, if_false] at h
            push_neg at h3
            obtain ⟨h3a, h3b⟩ := h3
            cases wincr with
            | true => simp only [if_true] at h; cases h; exact ⟨h2, h3a, h3b⟩
            | false =>
              simp only [Bool.false_eq_true, if_false] at h
              cases h
              exact ⟨h2, h3a, h3b⟩
        | false =>
          simp only [Bool.false_eq_true, if_false] at h
          by_cases h3 : bytesCompare a.Min a.Min = .lt ∨ bytesCompare a.Min a.Max = .gt
          · simp only [h3, if_true] at h; cases h
          · simp only [h3, if_false] at h
            push_neg at h3
            obtain ⟨h3a, h3b⟩ := h3
            cases wincr with
            | true => simp only [if_true] at h; cases h; exact ⟨h2, h3a, h3b⟩
            | false =>
              simp only [Bool.false_eq_true, if_false] at h
              cases h
              exact ⟨h2, h3a, h3b⟩

/-- C1: for every input document, whenever ParseMixConfig or ParseConfig
reports an error, the returned MixConfig collection is empty (nil): no
partial result, not even MixEntry values already built from earlier
sibling mix* keys, is ever returned. -/
theorem claim_C1_no_partial_config (rnd : Nat) (doc : List (String × JValue)) :
    (((ParseMixConfig rnd doc).2).isSome → (ParseMixConfig rnd doc).1 = []) ∧
    (((ParseConfig rnd doc).2).isSome → (ParseConfig rnd doc).1 = []) := by
  constructor
  · exact mixAuxErr rnd doc []
  · cases doc with
    | nil => intro _; rfl
    | cons p rest =>
      obtain ⟨k, v⟩ := p
      by_cases hke : lower k = "ether"
      · cases v with
        | obj ec =>
          cases hpe : parseEtherHdr rnd ec with
          | error e => intro _; simp [ParseConfig, hke, hpe]
          | ok eh => simp [ParseConfig, hke, hpe]
        | num n => intro _; simp [ParseConfig, hke]
        | str s => intro _; simp [ParseConfig, hke]
        | bool b => intro _; simp [ParseConfig, hke]
        | arr a => intro _; simp [ParseConfig, hke]
      · by_cases hm : mixMatch (lower k) = true
        · simp only [ParseConfig, hke, if_false, hm, if_true]
          exact mixAuxErr rnd _ []
        · intro _; simp [ParseConfig, hke, hm]

/-- Witness for C1 at concrete failing documents. -/
theorem claim_C1_no_partial_config_witness :
    (ParseMixConfig 0 [("bogus", JValue.num 1)]).1 = [] ∧
    (ParseConfig 0 [("zzz", JValue.num 1)]).1 = [] :=
  ⟨(claim_C1_no_partial_config 0 [("bogus", JValue.num 1)]).1 (by decide),
   (claim_C1_no_partial_config 0 [("zzz", JValue.num 1)]).2 (by decide)⟩

/-- C2 counterexample: the document with keys ether and bogus (bogus matches
neither the ether literal nor the mix pattern) parses successfully — the
range loop returns as soon as it sees the ether key, so no UnknownKey error
is reported, refuting the claim that any unrecognized key aborts the parse
regardless of the other keys. -/
theorem claim_C2_counterexample :
    (lower "bogus" ≠ "ether" ∧ mixMatch (lower "bogus") = false) ∧
    (ParseConfig 0 [("ether", JValue.obj []), ("bogus", JValue.num 1)]).2 = Option.none ∧
    (ParseConfig 0 [("ether", JValue.obj []), ("bogus", JValue.num 1)]).1 ≠ [] := by
  refine ⟨by decide, by decide, by decide⟩

/-- C2 amended: for every top-level document in which no key lowercases to
the literal ether, if at least one key matches neither recognized form then
ParseConfig returns an error and no MixConfig (the error is the UnknownKey
one unless an earlier mix* entry fails first).  When the document also
holds an ether key, the parse may instead succeed and ignore the
unrecognized key, depending on map iteration order. -/
theorem claim_C2_unrecognized_key_errors (rnd : Nat) (doc : List (String × JValue))
    (hne : ∀ p ∈ doc, lower p.1 ≠ "ether")
    (hbad : ∃ p ∈ doc, mixMatch (lower p.1) = false) :
    ((ParseConfig rnd doc).2).isSome ∧ (ParseConfig rnd doc).1 = [] := by
  cases doc with
  | nil => simp at hbad
  | cons p rest =>
    obtain ⟨k, v⟩ := p
    have hke : lower k ≠ "ether" := hne (k, v) (List.mem_cons_self _ _)
    by_cases hm : mixMatch (lower k) = true
    · simp only [ParseConfig, hke, if_false, hm, if_true]
      exact mixAuxBad rnd _ [] hbad
    · simp [ParseConfig, hke, hm]

/-- Witness for the amended C2 at a concrete document. -/
theorem claim_C2_unrecognized_key_errors_witness :
    ((ParseConfig 0 [("mix1", JValue.obj [("ether", JValue.obj []),
        ("quantity", JValue.num 2)]), ("bogus", JValue.num 1)]).2).isSome ∧
    (ParseConfig 0 [("mix1", JValue.obj [("ether", JValue.obj []),
        ("quantity", JValue.num 2)]), ("bogus", JValue.num 1)]).1 = [] :=
  claim_C2_unrecognized_key_errors 0 _ (by decide) (by decide)

/-- C3: the document ether/daddr ff:ff:ff:ff:ff:ff with ip version 4 and
tcp dport 80 parses, for every value of the random source, to exactly one
MixEntry of quantity 1 whose chain is Ethernet (DType IPHDR) → Ip
(Version 4, DType TCPHDR) → Tcp with DPort the singleton range 80 and
SPort the zero value range. -/
theorem claim_C3_sample_document (rnd : Nat) :
    ParseConfig rnd
      [("ether", JValue.obj [("daddr", JValue.str "ff:ff:ff:ff:ff:ff"),
        ("ip", JValue.obj [("version", JValue.num 4),
          ("tcp", JValue.obj [("dport", JValue.num 80)])])])] =
    ([⟨⟨.etherhdr,
        { DAddr := ⟨[255, 255, 255, 255, 255, 255], [255, 255, 255, 255, 255, 255],
                    [255, 255, 255, 255, 255, 255], []⟩,
          SAddr := ⟨[], [], [], []⟩,
          VLAN := Option.none,
          DType := .iphdr,
          Data := .ip
            { Version := 4, SAddr := ⟨[], [], [], []⟩, DAddr := ⟨[], [], [], []⟩,
              DType := .tcphdr,
              Data := .tcp
                { SPort := ⟨0, 0, 0, 0⟩, DPort := ⟨80, 80, 80, 0⟩,
                  Seq := ⟨.random, 0⟩, Flags := 0,
                  DType := .etherhdr, Data := .none } } }⟩, 1⟩], Option.none) := rfl

/-- C4: for every address-range block whose min and max decode successfully
with min ≤ max (in the byte order the code uses) and whose start, if
present, decodes into [min, max], parseAddrRange succeeds; Current is the
start value (or Min when start is omitted) and Incr is the minimal byte
representation of 1 (or of the explicitly given increment). -/
theorem claim_C4_addr_range_success (f : String → Option (List Nat))
    (minS maxS : String) (startS : Option String) (incrN : Option Int)
    (mn mx st : List Nat)
    (hmin : f minS = some mn) (hmax : f maxS = some mx)
    (hord : bytesCompare mx mn ≠ .lt)
    (hstart : match startS with
      | some s => f s = some st ∧ bytesCompare st mn ≠ .lt ∧ bytesCompare st mx ≠ .gt
      | Option.none => st = mn) :
    parseAddrRange (rangeBlock minS maxS startS incrN) f =
      .ok ⟨mn, mx, st, ((incrN.map bigBytes).getD [1])⟩ := by
  cases startS with
  | none =>
    have hst : st = mn := hstart
    subst hst
    have hcm : bytesCompare st mx ≠ .gt := bytesCompare_ne_gt_of_swap hord
    cases incrN with
    | none =>
      simp [rangeBlock, parseAddrRange, parseAddrRangeAux, hmin, hmax, hord,
        bytesCompare_self, hcm,
        show lower "min" = "min" from rfl, show lower "max" = "max" from rfl]
    | some i =>
      simp [rangeBlock, parseAddrRange, parseAddrRangeAux, hmin, hmax, hord,
        bytesCompare_self, hcm,
        show lower "min" = "min" from rfl, show lower "max" = "max" from rfl,
        show lower "incr" = "incr" from rfl]
  | some s =>
    obtain ⟨hfs, hs1, hs2⟩ := hstart
    cases incrN with
    | none =>
      simp [rangeBlock, parseAddrRange, parseAddrRangeAux, hmin, hmax, hord, hfs, hs1, hs2,
        show lower "min" = "min" from rfl, show lower "max" = "max" from rfl,
        show lower "start" = "start" from rfl]
    | some i =>
      simp [rangeBlock, parseAddrRange, parseAddrRangeAux, hmin, hmax, hord, hfs, hs1, hs2,
        show lower "min" = "min" from rfl, show lower "max" = "max" from rfl,
        show lower "start" = "start" from rfl, show lower "incr" = "incr" from rfl]

/-- Witness for C4 at a concrete MAC range block. -/
theorem claim_C4_addr_range_success_witness :
    parseAddrRange (rangeBlock "00:00:00:00:00:01" "00:00:00:00:00:03"
        (some "00:00:00:00:00:02") (some 2)) parseRawMACAddr =
      .ok ⟨[0, 0, 0, 0, 0, 1], [0, 0, 0, 0, 0, 3], [0, 0, 0, 0, 0, 2],
        (((some (2 : Int)).map bigBytes).getD [1])⟩ :=
  claim_C4_addr_range_success parseRawMACAddr _ _ _ _ _ _ _
    (by decide) (by decide) (by decide) (by decide)

/-- C5: parseTCPFlags XORs the bit of each recognized token into the
accumulator, so repeating a flag cancels it; syn,syn gives 0 and syn,ack
gives Syn|Ack; and any array containing an unrecognized token is an
error. -/
theorem claim_C5_tcp_flags_xor :
    (∀ l : List String, (∀ s ∈ l, (flagBit (lower s)).isSome) →
      parseTCPFlags (l.map JValue.str) =
        .ok (l.foldl (fun a s => Nat.xor a ((flagBit (lower s)).getD 0)) 0)) ∧
    parseTCPFlags [JValue.str "syn", JValue.str "syn"] = .ok 0 ∧
    parseTCPFlags [JValue.str "syn", JValue.str "ack"] = .ok (Nat.lor 2 16) ∧
    (∀ l : List String, (∃ s ∈ l, flagBit (lower s) = Option.none) →
      ∃ e, parseTCPFlags (l.map JValue.str) = .error e) :=
  ⟨fun l h => tcpFlagsAuxOk l 0 h, rfl, rfl, fun l h => tcpFlagsAuxErr l 0 h⟩

/-- Witness for C5 on concrete flag arrays. -/
theorem claim_C5_tcp_flags_xor_witness :
    parseTCPFlags [JValue.str "fin", JValue.str "urg"] =
      .ok (["fin", "urg"].foldl (fun a s => Nat.xor a ((flagBit (lower s)).getD 0)) 0) ∧
    ∃ e, parseTCPFlags [JValue.str "zzz"] = .error e :=
  ⟨claim_C5_tcp_flags_xor.1 ["fin", "urg"] (by decide),
   claim_C5_tcp_flags_xor.2.2.2 ["zzz"] (by decide)⟩

/-- C6 counterexample: a mix1 entry whose mapping holds only an unrecognized
key has no quantity and no ether block, yet ParseMixConfig reports the
UnknownKey error for that key, not MissingRequiredField, refuting the
claimed error kind. -/
theorem claim_C6_counterexample :
    (ParseMixConfig 0 [("mix1", JValue.obj [("bogus", JValue.num 1)])]) =
      ([], some (PError.unknownKey "bogus")) ∧
    PError.unknownKey "bogus" ≠ PError.missingField := by
  refine ⟨by decide, by decide⟩

/-- C6 amended: for a mix* entry in canonical shape (optional ether block
followed by optional quantity, no other keys) whose ether block, when
present, parses successfully, if the quantity is absent or zero or the
ether block is absent, ParseMixConfig returns the MissingRequiredField
error and no MixConfig at all.  An entry holding an unrecognized key fails
with UnknownKey instead, and a malformed ether block fails with that
block's own error. -/
theorem claim_C6_missing_quantity_or_ether (rnd : Nat) (k : String)
    (etherB : Option (List (String × JValue))) (qN : Option Int)
    (hk : mixMatch (lower k) = true)
    (heth : match etherB with
      | some eb => isOkb (parseEtherHdr rnd eb) = true
      | Option.none => True)
    (hmiss : etherB = Option.none ∨ (qN.map toUInt32).getD 0 = 0) :
    ParseMixConfig rnd [(k, JValue.obj (mixEntryDoc etherB qN))] =
      ([], some PError.missingField) := by
  cases etherB with
  | none =>
    cases qN with
    | none => simp [ParseMixConfig, ParseMixConfigAux, hk, mixEntryDoc, parseMixUnit]
    | some n =>
      simp [ParseMixConfig, ParseMixConfigAux, hk, mixEntryDoc, parseMixUnit,
        show lower "quantity" = "quantity" from rfl]
  | some eb =>
    obtain ⟨ec, hec⟩ : ∃ ec, parseEtherHdr rnd eb = .ok ec := by
      have hh : isOkb (parseEtherHdr rnd eb) = true := heth
      cases hpe : parseEtherHdr rnd eb with
      | ok ec => exact ⟨ec, rfl⟩
      | error e => rw [hpe] at hh; simp [isOkb] at hh
    have hq0 : (qN.map toUInt32).getD 0 = 0 := by
      rcases hmiss with h | h
      · cases h
      · exact h
    cases qN with
    | none =>
      simp [ParseMixConfig, ParseMixConfigAux, hk, mixEntryDoc, parseMixUnit, hec,
        show lower "ether" = "ether" from rfl]
    | some n =>
      have hn0 : toUInt32 n = 0 := by simpa using hq0
      simp [ParseMixConfig, ParseMixConfigAux, hk, mixEntryDoc, parseMixUnit, hec, hn0,
        show lower "ether" = "ether" from rfl,
        show lower "quantity" = "quantity" from rfl]

/-- Witness for the amended C6: a mix3 entry with a valid ether block and no
quantity field. -/
theorem claim_C6_missing_quantity_or_ether_witness :
    ParseMixConfig 0 [("mix3", JValue.obj (mixEntryDoc
        (some [("daddr", JValue.str "ff:ff:ff:ff:ff:ff")]) Option.none))] =
      ([], some PError.missingField) :=
  claim_C6_missing_quantity_or_ether 0 "mix3" _ _ (by decide) (by decide) (Or.inr rfl)

/-- C7 counterexample: the empty randbytes mapping has no size key, yet
parseRandBytes succeeds with the zero RandBytes value instead of failing
with MissingRequiredField — the size field is not required. -/
theorem claim_C7_counterexample :
    parseRandBytes [] = .ok ⟨0, 0⟩ ∧
    parseRandBytes [] ≠ .error PError.missingField := by
  refine ⟨rfl, ?_⟩
  intro h
  rw [show parseRandBytes [] = Except.ok ⟨0, 0⟩ from rfl] at h
  cases h

/-- C7 amended: size is optional and defaults to 0; a randbytes mapping
without it succeeds with Size 0 when the deviation also defaults to 0, and
fails — with the RangeInvalid deviation-larger-than-size error, not
MissingRequiredField — when a positive deviation is given. -/
theorem claim_C7_size_optional (d : Int) (hd : 0 ≤ d) (hpos : 0 < toUInt32 d) :
    parseRandBytes [("deviation", JValue.num d)] = .error PError.rangeInvalid ∧
    parseRandBytes [] = .ok ⟨0, 0⟩ := by
  refine ⟨?_, rfl⟩
  have hnd : ¬ d < 0 := not_lt.mpr hd
  simp [parseRandBytes, parseRandBytesAux, hnd, hpos,
    show lower "deviation" = "deviation" from rfl]

/-- Witness for the amended C7 at deviation 5. -/
theorem claim_C7_size_optional_witness :
    parseRandBytes [("deviation", JValue.num 5)] = .error PError.rangeInvalid ∧
    parseRandBytes [] = .ok ⟨0, 0⟩ :=
  claim_C7_size_optional 5 (by decide) (by decide)

/-- C8 counterexample: parseMacAddr accepts a range whose min is a 6-byte
EUI-48 MAC and whose max is an 8-byte EUI-64 MAC; bytes.Compare orders the
unequal-length sequences lexicographically, so the parse succeeds with Min,
Current of length 6 but Max of length 8, refuting the equal-length
invariant. -/
theorem claim_C8_counterexample :
    parseMacAddr (JValue.obj [("range", JValue.obj
        [("min", JValue.str "00:00:00:00:00:00"),
         ("max", JValue.str "00:00:00:00:00:00:00:01")])]) =
      .ok ⟨[0, 0, 0, 0, 0, 0], [0, 0, 0, 0, 0, 0, 0, 1], [0, 0, 0, 0, 0, 0], [1]⟩ ∧
    ([0, 0, 0, 0, 0, 0] : List Nat).length ≠
      ([0, 0, 0, 0, 0, 0, 0, 1] : List Nat).length := by
  refine ⟨rfl, by decide⟩

/-- C8 amended: every AddrRange returned by parseAddrRange satisfies
Min ≤ Max and Min ≤ Current ≤ Max in the lexicographic bytes.Compare
order; the three byte sequences need not have equal length (mixed MAC
widths pass the checks), but whenever two of them do have equal length the
lexicographic check coincides with big-endian fixed-width integer
comparison. -/
theorem claim_C8_range_order (fields : List (String × JValue))
    (f : String → Option (List Nat)) (ar : AddrRange)
    (h : parseAddrRange fields f = .ok ar) :
    bytesCompare ar.Max ar.Min ≠ .lt ∧ bytesCompare ar.Current ar.Min ≠ .lt ∧
    bytesCompare ar.Current ar.Max ≠ .gt ∧
    (ar.Max.length = ar.Min.length → (∀ d ∈ ar.Max, d < 256) →
      (∀ d ∈ ar.Min, d < 256) → beVal ar.Min ≤ beVal ar.Max) ∧
    (ar.Current.length = ar.Min.length → (∀ d ∈ ar.Current, d < 256) →
      (∀ d ∈ ar.Min, d < 256) → beVal ar.Min ≤ beVal ar.Current) ∧
    (ar.Current.length = ar.Max.length → (∀ d ∈ ar.Current, d < 256) →
      (∀ d ∈ ar.Max, d < 256) → beVal ar.Current ≤ beVal ar.Max) := by
  obtain ⟨h1, h2, h3⟩ := addrRangeOkFacts fields f ar h
  refine ⟨h1, h2, h3, ?_, ?_, ?_⟩
  · intro hlen ha hb
    exact beVal_le_of_ne_lt hlen ha hb h1
  · intro hlen ha hb
    exact beVal_le_of_ne_lt hlen ha hb h2
  · intro hlen ha hb
    exact beVal_le_of_ne_gt hlen ha hb h3

/-- Witness for the amended C8 at a concrete MAC range. -/
theorem claim_C8_range_order_witness :
    bytesCompare ([0, 0, 0, 0, 0, 3] : List Nat) [0, 0, 0, 0, 0, 1] ≠ .lt ∧
    bytesCompare ([0, 0, 0, 0, 0, 1] : List Nat) [0, 0, 0, 0, 0, 1] ≠ .lt ∧
    bytesCompare ([0, 0, 0, 0, 0, 1] : List Nat) [0, 0, 0, 0, 0, 3] ≠ .gt ∧
    beVal [0, 0, 0, 0, 0, 1] ≤ beVal [0, 0, 0, 0, 0, 3] := by
  have h := claim_C8_range_order
    [("min", JValue.str "00:00:00:00:00:01"), ("max", JValue.str "00:00:00:00:00:03")]
    parseRawMACAddr ⟨[0, 0, 0, 0, 0, 1], [0, 0, 0, 0, 0, 3], [0, 0, 0, 0, 0, 1], [1]⟩ rfl
  exact ⟨h.1, h.2.1, h.2.2.1, h.2.2.2.1 (by decide) (by decide) (by decide)⟩

/-- C9: when an IP, TCP, UDP or ICMP block contains no nested-protocol and
no payload key, the successfully parsed config keeps the child tag its
builder started from, which is the zero value ETHERHDR of the enum — not
NONE; only the Ethernet builder initializes its tag to NONE (shown on the
empty block). -/
theorem claim_C9_default_dtype_etherhdr :
    (∀ (rnd : Nat) (fields : List (String × JValue)) (c : IPConfig),
      (∀ p ∈ fields, lower p.1 ≠ "tcp" ∧ lower p.1 ≠ "udp" ∧ lower p.1 ≠ "icmp" ∧
        lower p.1 ≠ "raw" ∧ lower p.1 ≠ "randbytes" ∧ lower p.1 ≠ "pdist") →
      parseIPHdr rnd fields = .ok c → c.DType = DataType.etherhdr) ∧
    (∀ (rnd : Nat) (fields : List (String × JValue)) (c : TCPConfig),
      (∀ p ∈ fields, lower p.1 ≠ "raw" ∧ lower p.1 ≠ "randbytes" ∧ lower p.1 ≠ "pdist") →
      parseTCPHdr rnd fields = .ok c → c.DType = DataType.etherhdr) ∧
    (∀ (rnd : Nat) (fields : List (String × JValue)) (c : UDPConfig),
      (∀ p ∈ fields, lower p.1 ≠ "raw" ∧ lower p.1 ≠ "randbytes" ∧ lower p.1 ≠ "pdist") →
      parseUDPHdr rnd fields = .ok c → c.DType = DataType.etherhdr) ∧
    (∀ (rnd : Nat) (fields : List (String × JValue)) (c : ICMPConfig),
      (∀ p ∈ fields, lower p.1 ≠ "raw" ∧ lower p.1 ≠ "randbytes" ∧ lower p.1 ≠ "pdist") →
      parseICMPHdr rnd fields = .ok c → c.DType = DataType.etherhdr) ∧
    (∀ (rnd : Nat) (c : EtherConfig),
      parseEtherHdr rnd [] = .ok c → c.DType = DataType.none) ∧
    DataType.etherhdr ≠ DataType.none := by
  refine ⟨?_, ?_, ?_, ?_, ?_, by decide⟩
  · intro rnd fields c h hp
    exact ipAuxDType rnd fields _ c h hp
  · intro rnd fields c h hp
    exact tcpAuxDType rnd fields _ c h hp
  · intro rnd fields c h hp
    exact udpAuxDType rnd fields _ c h hp
  · intro rnd fields c h hp
    exact icmpAuxDType rnd fields _ c h hp
  · intro rnd c hp
    simp only [parseEtherHdr, parseEtherHdrAux] at hp
    cases hp
    rfl

/-- Witness for C9 on concrete childless blocks. -/
theorem claim_C9_default_dtype_etherhdr_witness :
    IPConfig.DType ⟨4, ⟨[], [], [], []⟩, ⟨[], [], [], []⟩, .etherhdr, .none⟩ =
      DataType.etherhdr ∧
    EtherConfig.DType ⟨⟨[], [], [], []⟩, ⟨[], [], [], []⟩, Option.none,
      DataType.none, EtherChild.none⟩ = DataType.none :=
  ⟨claim_C9_default_dtype_etherhdr.1 0 [("version", JValue.num 4)] _ (by decide) rfl,
   claim_C9_default_dtype_etherhdr.2.2.2.2.1 0 _ rfl⟩

/-- C10: parseRandBytes silently skips every key other than size and
deviation (the switch has no default case), so inserting any unrecognized
key anywhere in the mapping neither fails nor changes the result. -/
theorem claim_C10_randbytes_ignores_unknown (l1 l2 : List (String × JValue))
    (k : String) (v : JValue)
    (h1 : lower k ≠ "size") (h2 : lower k ≠ "deviation") :
    parseRandBytes (l1 ++ (k, v) :: l2) = parseRandBytes (l1 ++ l2) := by
  unfold parseRandBytes
  rw [randAuxSkip k v h1 h2]

/-- Witness for C10 at a concrete mapping. -/
theorem claim_C10_randbytes_ignores_unknown_witness :
    parseRandBytes [("size", JValue.num 3), ("foo", JValue.bool true)] =
      parseRandBytes [("size", JValue.num 3)] :=
  claim_C10_randbytes_ignores_unknown [("size", JValue.num 3)] [] "foo"
    (JValue.bool true) (by decide) (by decide)
